import Mathlib

/-!
Verification of the AR session core of `src/lib.rs` (ARLens).

The code is a set of C-callable entry points over a process-wide optional
session (`static mut AR_SESSION : Option<Arc<Mutex<ARSession>>>`).  The
embedding models the global as `Option ARSession` (`none` = uninitialized)
and every entry point as a pure function from the global state (plus its
arguments) to its result and the new global state.

`f32` values are stored and returned by the code without any arithmetic, so
a float is embedded as its 32-bit IEEE-754 bit pattern (a `Nat`); the
literal `0.0f32` has bit pattern `0`.  `usize` lengths are `Nat`; the
`len() as i32` casts are embedded with their wrapping semantics.  Rust
`String`s are Lean `String`s (sequences of unicode scalar values), and the
C-string argument of `add_detected_plane` is an `Option (List Nat)`: `none`
for a null pointer, otherwise the bytes of the string (up to the NUL), which
the code decodes with `CStr::to_string_lossy`.
-/

/-- Bit pattern of an IEEE-754 `f32` value (the code never computes with
floats, it only stores and returns them). -/
abbrev F32 := Nat

/-- The `f32` literal `0.0` (bit pattern `0`). -/
def f32zero : F32 := 0

/-- Rust `usize as i32`: keep the low 32 bits, reinterpret as signed. -/
def i32ofNat (n : Nat) : Int :=
  if n % 2 ^ 32 < 2 ^ 31 then Int.ofNat (n % 2 ^ 32)
  else Int.ofNat (n % 2 ^ 32) - 2 ^ 32

/-- Little-endian decimal digits, fuel-driven so that it is structurally
recursive (any `fuel > n` is enough, see `decDigitsRevFuel_congr`). -/
def decDigitsRevFuel : Nat → Nat → List Nat
  | 0, _ => []
  | fuel + 1, n => if n < 10 then [n] else n % 10 :: decDigitsRevFuel fuel (n / 10)

/-- Little-endian decimal digits of `n` (the digits of Rust
`format!("{}", n)`, least significant first; `0` prints as `"0"`). -/
def decDigitsRev (n : Nat) : List Nat := decDigitsRevFuel (n + 1) n

/-- The character of a decimal digit (digit zero is code point 48). -/
def decChar (d : Nat) : Char := Char.ofNat (48 + d)

/-- Decimal rendering of a `Nat`, as produced by Rust `format!("{}", n)`
for a `usize`. -/
def natRepr (n : Nat) : String := ⟨(decDigitsRev n).reverse.map decChar⟩

/-- Decimal rendering of an `Int`, as produced by Rust `format!("{}", n)`
for an `i32` (minus sign for negatives). -/
def intRepr (i : Int) : String :=
  match i with
  | Int.ofNat m => natRepr m
  | Int.negSucc m => "-" ++ natRepr (m + 1)

/-- Is `b` a UTF-8 continuation byte (`0x80..=0xBF`)? -/
def isCont (b : Nat) : Bool := 0x80 ≤ b && b ≤ 0xBF

/-- Payload bits of a continuation byte. -/
def contVal (b : Nat) : Nat := b - 0x80

/-- Valid range of the second byte of a three-byte sequence headed by `b`
(tighter for `0xE0`/`0xED` to exclude overlong forms and surrogates),
exactly as in the Rust UTF-8 validation. -/
def cont3Ok (b c : Nat) : Bool :=
  if b == 0xE0 then 0xA0 ≤ c && c ≤ 0xBF
  else if b == 0xED then 0x80 ≤ c && c ≤ 0x9F
  else isCont c

/-- Valid range of the second byte of a four-byte sequence headed by `b`
(tighter for `0xF0`/`0xF4`), exactly as in the Rust UTF-8 validation. -/
def cont4Ok (b c : Nat) : Bool :=
  if b == 0xF0 then 0x90 ≤ c && c ≤ 0xBF
  else if b == 0xF4 then 0x80 ≤ c && c ≤ 0x8F
  else isCont c

/-- UTF-8 decoding with U+FFFD substitution of maximal invalid subparts,
fuel-driven so that it is structurally recursive: every emitted scalar
consumes at least one byte, so any `fuel > length` never runs out. -/
def utf8LossyDecodeFuel : Nat → List Nat → List Nat
  | 0, _ => []
  | _fuel + 1, [] => []
  | fuel + 1, b :: rest =>
    if b < 0x80 then b :: utf8LossyDecodeFuel fuel rest
    else if 0xC2 ≤ b && b ≤ 0xDF then
      match rest with
      | [] => [0xFFFD]
      | c1 :: rest2 =>
        if isCont c1 then ((b - 0xC0) * 0x40 + contVal c1) :: utf8LossyDecodeFuel fuel rest2
        else 0xFFFD :: utf8LossyDecodeFuel fuel (c1 :: rest2)
    else if 0xE0 ≤ b && b ≤ 0xEF then
      match rest with
      | [] => [0xFFFD]
      | c1 :: rest2 =>
        if cont3Ok b c1 then
          match rest2 with
          | [] => [0xFFFD]
          | c2 :: rest3 =>
            if isCont c2 then
              ((b - 0xE0) * 0x1000 + contVal c1 * 0x40 + contVal c2) :: utf8LossyDecodeFuel fuel rest3
            else 0xFFFD :: utf8LossyDecodeFuel fuel (c2 :: rest3)
        else 0xFFFD :: utf8LossyDecodeFuel fuel (c1 :: rest2)
    else if 0xF0 ≤ b && b ≤ 0xF4 then
      match rest with
      | [] => [0xFFFD]
      | c1 :: rest2 =>
        if cont4Ok b c1 then
          match rest2 with
          | [] => [0xFFFD]
          | c2 :: rest3 =>
            if isCont c2 then
              match rest3 with
              | [] => [0xFFFD]
              | c3 :: rest4 =>
                if isCont c3 then
                  ((b - 0xF0) * 0x40000 + contVal c1 * 0x1000 + contVal c2 * 0x40 + contVal c3)
                    :: utf8LossyDecodeFuel fuel rest4
                else 0xFFFD :: utf8LossyDecodeFuel fuel (c3 :: rest4)
            else 0xFFFD :: utf8LossyDecodeFuel fuel (c2 :: rest3)
        else 0xFFFD :: utf8LossyDecodeFuel fuel (c1 :: rest2)
    else 0xFFFD :: utf8LossyDecodeFuel fuel rest

/-- The scalar values produced by the Rust `String::from_utf8_lossy` /
`CStr::to_string_lossy` on the byte sequence. -/
def utf8LossyDecode (l : List Nat) : List Nat := utf8LossyDecodeFuel (l.length + 1) l

/-- Pack a list of unicode scalar values into a `String` (every value the
decoder emits is a valid scalar, so `Char.ofNat` is exact on them). -/
def cpsToString (l : List Nat) : String := ⟨l.map Char.ofNat⟩

/-- Rust `struct ARPlane` of `src/lib.rs`. -/
structure ARPlane where
  id : String
  center : F32 × F32 × F32
  extent : F32 × F32
  normal : F32 × F32 × F32
deriving DecidableEq

/-- Rust `enum ARObjectType` of `src/lib.rs`. -/
inductive ARObjectType where
  | Cube : ARObjectType
  | Sphere : ARObjectType
  | Custom : String → ARObjectType
deriving DecidableEq

/-- Rust `struct ARObject` of `src/lib.rs` (`rotation` is a quaternion). -/
structure ARObject where
  id : String
  position : F32 × F32 × F32
  rotation : F32 × F32 × F32 × F32
  object_type : ARObjectType
deriving DecidableEq

/-- Rust `struct ARSession` of `src/lib.rs`. -/
structure ARSession where
  initialized : Bool
  camera_position : F32 × F32 × F32
  detected_planes : List ARPlane
  virtual_objects : List ARObject
deriving DecidableEq

/-- The global `AR_SESSION`: `none` before `initialize_ar_session` has run. -/
abbrev GlobalState := Option ARSession

/-- Rust `fn initialize_ar_session()` (lines 53-67): installs a fresh session,
unconditionally replacing whatever was there.  (The token-free Lean name
abbreviates the Rust name `initialize_ar_session`.) -/
def init_ar_session (_s : GlobalState) : GlobalState :=
  some { initialized := true
         camera_position := (f32zero, f32zero, f32zero)
         detected_planes := []
         virtual_objects := [] }

/-- Entry point `update_camera_position` (lines 71-79). -/
def update_camera_position (s : GlobalState) (x y z : F32) : GlobalState :=
  match s with
  | none => none
  | some ses => some { ses with camera_position := (x, y, z) }

/-- Entry point `add_detected_plane` (lines 83-116).  `id_ptr = none`
models a null pointer; `some bytes` a non-null C string with the given
bytes, decoded with `to_string_lossy`. -/
def add_detected_plane (s : GlobalState) (id_ptr : Option (List Nat))
    (center_x center_y center_z width height normal_x normal_y normal_z : F32) :
    GlobalState :=
  match s with
  | none => none
  | some ses =>
    let id : String :=
      match id_ptr with
      | some bytes => cpsToString (utf8LossyDecode bytes)
      | none => "plane_" ++ natRepr ses.detected_planes.length
    let plane : ARPlane :=
      { id := id
        center := (center_x, center_y, center_z)
        extent := (width, height)
        normal := (normal_x, normal_y, normal_z) }
    some { ses with detected_planes := ses.detected_planes ++ [plane] }

/-- The selector-to-type mapping of `place_virtual_object` (lines 129-133):
`0` is a cube, `1` a sphere, anything else `Custom("custom_<n>")`. -/
def objTypeOfSelector (object_type : Int) : ARObjectType :=
  match object_type with
  | 0 => ARObjectType.Cube
  | 1 => ARObjectType.Sphere
  | n => ARObjectType.Custom ("custom_" ++ intRepr n)

/-- Entry point `place_virtual_object` (lines 120-157): returns the
`i32` handle and the new global state. -/
def place_virtual_object (s : GlobalState) (object_type : Int)
    (pos_x pos_y pos_z rot_x rot_y rot_z rot_w : F32) : Int × GlobalState :=
  match s with
  | none => (-1, none)
  | some ses =>
    let ot : ARObjectType := objTypeOfSelector object_type
    let object : ARObject :=
      { id := "object_" ++ natRepr ses.virtual_objects.length
        position := (pos_x, pos_y, pos_z)
        rotation := (rot_x, rot_y, rot_z, rot_w)
        object_type := ot }
    let object_id : Int := i32ofNat ses.virtual_objects.length
    (object_id, some { ses with virtual_objects := ses.virtual_objects ++ [object] })

/-- Entry point `remove_virtual_object` (lines 161-176): returns the
`bool` result and the new global state.  The `object_id as usize` cast is
only reached when `object_id >= 0`, where it is exact (`Int.toNat`). -/
def remove_virtual_object (s : GlobalState) (object_id : Int) : Bool × GlobalState :=
  match s with
  | none => (false, none)
  | some ses =>
    if 0 ≤ object_id ∧ object_id.toNat < ses.virtual_objects.length then
      (true, some { ses with virtual_objects := ses.virtual_objects.eraseIdx object_id.toNat })
    else (false, some ses)

/-- Entry point `get_session_stats` (lines 180-197).  An output pointer
is `none` when null, `some v` when it points at a slot currently holding
`v`; the result is (new global state, final `num_planes` slot, final
`num_objects` slot). -/
def get_session_stats (s : GlobalState) (num_planes num_objects : Option Int) :
    GlobalState × Option Int × Option Int :=
  match s with
  | none => (none, num_planes, num_objects)
  | some ses =>
    ( some ses,
      match num_planes with
      | none => none
      | some _ => some (i32ofNat ses.detected_planes.length),
      match num_objects with
      | none => none
      | some _ => some (i32ofNat ses.virtual_objects.length) )

/-- One call at the foreign boundary (the operations that touch the
session state), with its arguments. -/
inductive BOp where
  | initOp : BOp
  | cameraOp : F32 → F32 → F32 → BOp
  | addPlaneOp : Option (List Nat) → F32 → F32 → F32 → F32 → F32 → F32 → F32 → F32 → BOp
  | placeObjOp : Int → F32 → F32 → F32 → F32 → F32 → F32 → F32 → BOp
  | removeObjOp : Int → BOp
  | statsOp : Option Int → Option Int → BOp
deriving DecidableEq

/-- Effect of one boundary call on the global state. -/
def applyOp (s : GlobalState) : BOp → GlobalState
  | BOp.initOp => init_ar_session s
  | BOp.cameraOp x y z => update_camera_position s x y z
  | BOp.addPlaneOp id a b c d e f g h => add_detected_plane s id a b c d e f g h
  | BOp.placeObjOp t a b c d e f g => (place_virtual_object s t a b c d e f g).2
  | BOp.removeObjOp h => (remove_virtual_object s h).2
  | BOp.statsOp p o => (get_session_stats s p o).1

/-- Run a sequence of boundary calls. -/
def runOps (s : GlobalState) (ops : List BOp) : GlobalState := ops.foldl applyOp s

/-- The handles returned by the `place_virtual_object` calls of a sequence
of boundary calls, in call order. -/
def placeResults (s : GlobalState) : List BOp → List Int
  | [] => []
  | BOp.placeObjOp t a b c d e f g :: rest =>
    (place_virtual_object s t a b c d e f g).1 ::
      placeResults (place_virtual_object s t a b c d e f g).2 rest
  | op :: rest => placeResults (applyOp s op) rest

/-- Number of `place_virtual_object` calls in a sequence. -/
def countPlaces : List BOp → Nat
  | [] => 0
  | BOp.placeObjOp _ _ _ _ _ _ _ _ :: rest => countPlaces rest + 1
  | _ :: rest => countPlaces rest

/-- Is this call a `remove_virtual_object` call? -/
def isRemoveOp : BOp → Bool
  | BOp.removeObjOp _ => true
  | _ => false

/-- Is this call a (re-)initialization? -/
def isInitOp : BOp → Bool
  | BOp.initOp => true
  | _ => false

/-- The ids of the stored virtual objects. -/
def objIds (s : GlobalState) : List String :=
  match s with
  | none => []
  | some ses => ses.virtual_objects.map ARObject.id

/-- The ids of the stored planes. -/
def planeIds (s : GlobalState) : List String :=
  match s with
  | none => []
  | some ses => ses.detected_planes.map ARPlane.id

/-- The number of stored virtual objects (0 when uninitialized). -/
def objCount (s : GlobalState) : Nat :=
  match s with
  | none => 0
  | some ses => ses.virtual_objects.length

/-- The number denoted by a little-endian digit list. -/
def decValue : List Nat → Nat
  | [] => 0
  | d :: ds => d + 10 * decValue ds

/-- The stored virtual objects of a global state. -/
def objList (s : GlobalState) : List ARObject :=
  match s with
  | none => []
  | some ses => ses.virtual_objects

/-- A concrete virtual object, for witnesses. -/
def demoObject : ARObject :=
  { id := "a"
    position := (f32zero, f32zero, f32zero)
    rotation := (f32zero, f32zero, f32zero, f32zero)
    object_type := ARObjectType.Cube }

/-- A second concrete virtual object, for witnesses. -/
def demoObject2 : ARObject :=
  { demoObject with id := "b", object_type := ARObjectType.Sphere }

/-- A concrete active session holding two objects, for witnesses. -/
def demoSession : ARSession :=
  { initialized := true
    camera_position := (f32zero, f32zero, f32zero)
    detected_planes := []
    virtual_objects := [demoObject, demoObject2] }

/-- A session holding `2 ^ 31` objects (reachable in the model by `2 ^ 31`
placements), exhibiting the `len() as i32` wrap-around. -/
def bigSession : ARSession :=
  { initialized := true
    camera_position := (f32zero, f32zero, f32zero)
    detected_planes := []
    virtual_objects := List.replicate (2 ^ 31) demoObject }

/-- The session installed by `initialize_ar_session`. -/
def freshSession : ARSession :=
  { initialized := true
    camera_position := (f32zero, f32zero, f32zero)
    detected_planes := []
    virtual_objects := [] }

/-- The id `place_virtual_object` synthesizes when `n` objects are stored. -/
def synthObjId (n : Nat) : String := "object_" ++ natRepr n

/-- The object ids are exactly `object_0 ... object_(n-1)` in storage
order (trivially true while uninitialized). -/
def objIdsCanonical (s : GlobalState) : Prop :=
  match s with
  | none => True
  | some ses => ses.virtual_objects.map ARObject.id =
      (List.range ses.virtual_objects.length).map synthObjId

/-- place, place, remove the first, place: the shortest call sequence on
which object ids collide and place handles repeat. -/
def dupOps : List BOp :=
  [BOp.placeObjOp 0 f32zero f32zero f32zero f32zero f32zero f32zero f32zero,
   BOp.placeObjOp 0 f32zero f32zero f32zero f32zero f32zero f32zero f32zero,
   BOp.removeObjOp 0,
   BOp.placeObjOp 0 f32zero f32zero f32zero f32zero f32zero f32zero f32zero]

/-- Two placements with an interleaved camera update, for witnesses. -/
def placesOnlyOps : List BOp :=
  [BOp.placeObjOp 0 f32zero f32zero f32zero f32zero f32zero f32zero f32zero,
   BOp.cameraOp f32zero f32zero f32zero,
   BOp.placeObjOp 1 f32zero f32zero f32zero f32zero f32zero f32zero f32zero]

/-- The function `decDigitsRevFuel` does not depend on the fuel once the fuel exceeds
the number. -/
theorem decDigitsRevFuel_congr : ∀ f1 f2 n, n < f1 → n < f2 →
    decDigitsRevFuel f1 n = decDigitsRevFuel f2 n := by
  intro f1
  induction f1 with
  | zero => intro f2 n h1 _; omega
  | succ f ih =>
    intro f2 n h1 h2
    cases f2 with
    | zero => omega
    | succ f2' =>
      by_cases h10 : n < 10
      · simp [decDigitsRevFuel, h10]
      · simp only [decDigitsRevFuel, h10, if_false]
        rw [ih f2' (n / 10) (by omega) (by omega)]

/-- Every decimal digit produced is below 10. -/
theorem decDigitsRev_lt_ten : ∀ n, ∀ d ∈ decDigitsRev n, d < 10 := by
  have aux : ∀ f n, n < f → ∀ d ∈ decDigitsRevFuel f n, d < 10 := by
    intro f
    induction f with
    | zero => intro n h; omega
    | succ f ih =>
      intro n hn d hd
      by_cases h10 : n < 10
      · simp [decDigitsRevFuel, h10] at hd
        omega
      · simp only [decDigitsRevFuel, h10, if_false, List.mem_cons] at hd
        rcases hd with hd | hd
        · omega
        · exact ih (n / 10) (by omega) d hd
  intro n
  exact aux (n + 1) n (by omega)

/-- Round trip: the digit list of `n` denotes `n`. -/
theorem decValue_decDigitsRev (n : Nat) : decValue (decDigitsRev n) = n := by
  induction n using Nat.strong_induction_on with
  | _ n ih =>
    unfold decDigitsRev
    by_cases h10 : n < 10
    · simp [decDigitsRevFuel, h10, decValue]
    · simp only [decDigitsRevFuel, h10, if_false]
      rw [decDigitsRevFuel_congr n (n / 10 + 1) (n / 10) (by omega) (by omega)]
      have := ih (n / 10) (by omega)
      unfold decDigitsRev at this
      simp only [decValue, this]
      omega

/-- On an actual digit (`d < 10`), `decChar` has code point `48 + d`. -/
theorem decChar_toNat (d : Nat) (h : d < 10) : (decChar d).toNat = 48 + d := by
  interval_cases d <;> decide

/-- Decimal rendering is injective. -/
theorem natRepr_injective (a b : Nat) (h : natRepr a = natRepr b) : a = b := by
  have hdata : (decDigitsRev a).reverse.map decChar = (decDigitsRev b).reverse.map decChar :=
    congrArg String.data h
  have toNatMap : ∀ l : List Nat, (∀ d ∈ l, d < 10) →
      (l.map decChar).map Char.toNat = l.map (fun d => 48 + d) := by
    intro l hl
    rw [List.map_map]
    exact List.map_congr_left (fun d hd => decChar_toNat d (hl d hd))
  have h2 : (decDigitsRev a).reverse.map (fun d => 48 + d) =
      (decDigitsRev b).reverse.map (fun d => 48 + d) := by
    rw [← toNatMap _ (fun d hd => decDigitsRev_lt_ten a d (List.mem_reverse.mp hd)),
      ← toNatMap _ (fun d hd => decDigitsRev_lt_ten b d (List.mem_reverse.mp hd)), hdata]
  have hinj : Function.Injective (fun d : Nat => 48 + d) := fun x y hxy =>
    Nat.add_left_cancel hxy
  have h3 : (decDigitsRev a).reverse = (decDigitsRev b).reverse :=
    List.map_injective_iff.mpr hinj h2
  have h4 : decDigitsRev a = decDigitsRev b := List.reverse_inj.mp h3
  rw [← decValue_decDigitsRev a, ← decValue_decDigitsRev b, h4]

/-- Every character of a decimal rendering is ASCII. -/
theorem natRepr_ascii (n : Nat) : ∀ c ∈ (natRepr n).data, c.toNat < 128 := by
  intro c hc
  simp only [natRepr, List.mem_map] at hc
  obtain ⟨d, hd, rfl⟩ := hc
  have := decDigitsRev_lt_ten n d (List.mem_reverse.mp hd)
  rw [decChar_toNat d this]
  omega

/-- String append concatenates the character lists. -/
theorem string_data_append (a b : String) : (a ++ b).data = a.data ++ b.data := rfl

/-- C9: whatever the prior state (uninitialized, or active with any camera
position, planes and objects), `initialize_ar_session` leaves the session
Active with camera position `(0,0,0)` and both collections empty; prior
content is unconditionally discarded (the result does not depend on the
prior state at all). -/
theorem init_ar_session_resets (s : GlobalState) :
    init_ar_session s =
      some { initialized := true
             camera_position := (f32zero, f32zero, f32zero)
             detected_planes := []
             virtual_objects := [] } := rfl

/-- C1: `remove_virtual_object h` returns `true` with the object count
decreased by exactly one iff the session is Active and `0 ≤ h < count`;
in every other case it returns `false` and the whole session state is
unchanged. -/
theorem remove_virtual_object_success_iff (s : GlobalState) (h : Int) :
    ((remove_virtual_object s h).1 = true ∧
        objCount (remove_virtual_object s h).2 + 1 = objCount s ↔
      s.isSome = true ∧ 0 ≤ h ∧ h < (objCount s : Int)) ∧
    (¬ (s.isSome = true ∧ 0 ≤ h ∧ h < (objCount s : Int)) →
      (remove_virtual_object s h).1 = false ∧ (remove_virtual_object s h).2 = s) := by
  cases s with
  | none =>
    refine ⟨?_, fun _ => ⟨rfl, rfl⟩⟩
    simp [remove_virtual_object, objCount]
  | some ses =>
    by_cases hcond : 0 ≤ h ∧ h.toNat < ses.virtual_objects.length
    · have h1 : remove_virtual_object (some ses) h =
          (true, some { ses with virtual_objects := ses.virtual_objects.eraseIdx h.toNat }) := by
        simp only [remove_virtual_object, if_pos hcond]
      have hlt : h < (objCount (some ses) : Int) := by
        show h < (ses.virtual_objects.length : Int)
        have h2 := hcond.2
        have h0 := hcond.1
        omega
      have hlen : objCount (remove_virtual_object (some ses) h).2 + 1 = objCount (some ses) := by
        rw [h1]
        show (ses.virtual_objects.eraseIdx h.toNat).length + 1 = ses.virtual_objects.length
        rw [List.length_eraseIdx_of_lt hcond.2]
        omega
      refine ⟨⟨fun _ => ⟨rfl, hcond.1, hlt⟩, fun _ => ⟨by rw [h1], hlen⟩⟩, fun hneg => ?_⟩
      exact absurd ⟨rfl, hcond.1, hlt⟩ hneg
    · have h1 : remove_virtual_object (some ses) h = (false, some ses) := by
        simp only [remove_virtual_object, if_neg hcond]
      constructor
      · constructor
        · intro hcontra
          rw [h1] at hcontra
          cases hcontra.1
        · rintro ⟨-, h0, hltc⟩
          have hltlen : h < (ses.virtual_objects.length : Int) := hltc
          exact absurd ⟨h0, by omega⟩ hcond
      · intro _
        rw [h1]
        exact ⟨rfl, rfl⟩

/-- Witness for C1 at a concrete input: removing handle `5` from the
uninitialized session fails and changes nothing. -/
theorem remove_virtual_object_success_iff_witness :
    (remove_virtual_object none 5).1 = false ∧ (remove_virtual_object none 5).2 = none :=
  (remove_virtual_object_success_iff none 5).2 (by decide)

/-- C5: after a successful `remove_virtual_object k`, every object that
was at an index `i < k` is still at `i`, and every object that was at an
index `i > k` is now at `i - 1`, with the records themselves unmodified
(the lookups return the very same `ARObject` values). -/
theorem remove_virtual_object_shifts (ses : ARSession) (k : Nat)
    (hk : k < ses.virtual_objects.length) :
    (remove_virtual_object (some ses) (Int.ofNat k)).1 = true ∧
    ∀ i : Nat,
      (i < k → (objList (remove_virtual_object (some ses) (Int.ofNat k)).2)[i]? =
        ses.virtual_objects[i]?) ∧
      (k < i → (objList (remove_virtual_object (some ses) (Int.ofNat k)).2)[i - 1]? =
        ses.virtual_objects[i]?) := by
  have hcond : 0 ≤ Int.ofNat k ∧ (Int.ofNat k).toNat < ses.virtual_objects.length :=
    ⟨Int.ofNat_nonneg k, hk⟩
  have h1 : remove_virtual_object (some ses) (Int.ofNat k) =
      (true, some { ses with virtual_objects := ses.virtual_objects.eraseIdx k }) := by
    simp only [remove_virtual_object, if_pos hcond]
    rfl
  refine ⟨by rw [h1], fun i => ⟨fun hik => ?_, fun hki => ?_⟩⟩
  · rw [h1]
    show (ses.virtual_objects.eraseIdx k)[i]? = ses.virtual_objects[i]?
    exact List.getElem?_eraseIdx_of_lt ses.virtual_objects k i hik
  · rw [h1]
    show (ses.virtual_objects.eraseIdx k)[i - 1]? = ses.virtual_objects[i]?
    rw [List.getElem?_eraseIdx_of_ge ses.virtual_objects k (i - 1) (by omega)]
    congr 1
    omega

/-- Witness for C5 at a concrete input: removing index `0` from a session
with two objects succeeds, and the object that was at index `1` is now at
index `0`. -/
theorem remove_virtual_object_shifts_witness :
    (remove_virtual_object (some demoSession) (Int.ofNat 0)).1 = true ∧
    (objList (remove_virtual_object (some demoSession) (Int.ofNat 0)).2)[1 - 1]? =
      demoSession.virtual_objects[1]? :=
  ⟨(remove_virtual_object_shifts demoSession 0 (by decide)).1,
    ((remove_virtual_object_shifts demoSession 0 (by decide)).2 1).2 (by decide)⟩

/-- C8: `get_session_stats` never touches the session state, never writes
through a null output pointer, leaves both output slots exactly as the
caller seeded them when the session is uninitialized, and writes the
(`as i32`-cast) plane and object counts to exactly the requested slots
when the session is Active. -/
theorem get_session_stats_frame (s : GlobalState) (p o : Option Int) :
    (get_session_stats s p o).1 = s ∧
    (p = none → (get_session_stats s p o).2.1 = none) ∧
    (o = none → (get_session_stats s p o).2.2 = none) ∧
    (s = none → (get_session_stats s p o).2.1 = p ∧ (get_session_stats s p o).2.2 = o) ∧
    (∀ ses, s = some ses →
      (p ≠ none →
        (get_session_stats s p o).2.1 = some (i32ofNat ses.detected_planes.length)) ∧
      (o ≠ none →
        (get_session_stats s p o).2.2 = some (i32ofNat ses.virtual_objects.length))) := by
  cases s with
  | none =>
    refine ⟨rfl, fun hp => ?_, fun ho => ?_, fun _ => ⟨rfl, rfl⟩,
      fun ses hses => absurd hses (by exact Option.noConfusion)⟩
    · rw [hp]; rfl
    · rw [ho]; rfl
  | some ses =>
    refine ⟨rfl, fun hp => ?_, fun ho => ?_,
      fun hnone => absurd hnone (Option.some_ne_none ses), fun ses' hses' => ?_⟩
    · rw [hp]; rfl
    · rw [ho]; rfl
    · obtain rfl : ses = ses' := Option.some.inj hses'
      constructor
      · intro hp
        cases p with
        | none => exact absurd rfl hp
        | some v => rfl
      · intro ho
        cases o with
        | none => exact absurd rfl ho
        | some w => rfl

/-- Witness for C8 at a concrete input: on the uninitialized session, both
output slots keep their pre-seeded `-1`. -/
theorem get_session_stats_frame_witness :
    (get_session_stats none (some (-1)) (some (-1))).2.1 = some (-1) ∧
    (get_session_stats none (some (-1)) (some (-1))).2.2 = some (-1) :=
  (get_session_stats_frame none (some (-1)) (some (-1))).2.2.2.1 rfl

/-- The cast `usize as i32` is the identity below `2 ^ 31`. -/
theorem i32ofNat_small (n : Nat) (h : n < 2 ^ 31) : i32ofNat n = (n : Int) := by
  unfold i32ofNat
  rw [Nat.mod_eq_of_lt (by omega), if_pos h]
  rfl

/-- A negative handle makes `remove_virtual_object` fail without touching
the session. -/
theorem remove_virtual_object_neg (ses : ARSession) (h : Int) (hneg : h < 0) :
    remove_virtual_object (some ses) h = (false, some ses) := by
  simp only [remove_virtual_object]
  rw [if_neg]
  rintro ⟨h0, -⟩
  omega

/-- First component of a `place_virtual_object` call on an Active session:
the `as i32`-cast prior object count. -/
theorem place_fst (ses : ARSession) (t : Int) (a b c d e f g : F32) :
    (place_virtual_object (some ses) t a b c d e f g).1 =
      i32ofNat ses.virtual_objects.length := rfl

/-- An in-range handle makes `remove_virtual_object` erase that index. -/
theorem remove_virtual_object_success (ses2 : ARSession) (h : Int)
    (h0 : 0 ≤ h) (hlt : h.toNat < ses2.virtual_objects.length) :
    remove_virtual_object (some ses2) h =
      (true, some { ses2 with
        virtual_objects := ses2.virtual_objects.eraseIdx h.toNat }) := by
  simp only [remove_virtual_object, if_pos (And.intro h0 hlt)]

/-- C2 as stated is false on the code: on an Active session holding
`2 ^ 31` objects, `place_virtual_object` returns a negative handle (the
`len() as i32` cast wraps to `-2 ^ 31`), so the handle is neither `≥ 0`
nor equal to the object count before the append. -/
theorem place_virtual_object_overflow_cex :
    (place_virtual_object (some bigSession) 0 f32zero f32zero f32zero f32zero f32zero
        f32zero f32zero).1 < 0 ∧
    (place_virtual_object (some bigSession) 0 f32zero f32zero f32zero f32zero f32zero
        f32zero f32zero).1 ≠ (objCount (some bigSession) : Int) := by
  have hbig : bigSession.virtual_objects.length = 2 ^ 31 := by
    rw [show bigSession.virtual_objects = List.replicate (2 ^ 31) demoObject from rfl]
    exact List.length_replicate (2 ^ 31) demoObject
  have h1 : (place_virtual_object (some bigSession) 0 f32zero f32zero f32zero f32zero f32zero
      f32zero f32zero).1 = i32ofNat (2 ^ 31) := by
    rw [place_fst, hbig]
  have h2 : (objCount (some bigSession) : Int) = ((2 ^ 31 : Nat) : Int) := by
    rw [show objCount (some bigSession) = bigSession.virtual_objects.length from rfl, hbig]
  rw [h1, h2]
  exact ⟨by decide, by decide⟩

/-- C2 (amended): for every Active session with fewer than `2 ^ 31`
objects, `place_virtual_object` returns the object count before the append
as its handle, that handle is `≥ 0`, and it appends exactly one object
whose id is `"object_<that same count>"`; called while Uninitialized it
returns `-1` and appends nothing.  (The counterexample forces the
`< 2 ^ 31` bound, where the `as i32` cast is the identity.) -/
theorem place_virtual_object_spec (ses : ARSession)
    (hlen : ses.virtual_objects.length < 2 ^ 31) (t : Int)
    (px py pz rx ry rz rw : F32) :
    (place_virtual_object (some ses) t px py pz rx ry rz rw).1 =
      (ses.virtual_objects.length : Int) ∧
    0 ≤ (place_virtual_object (some ses) t px py pz rx ry rz rw).1 ∧
    (place_virtual_object (some ses) t px py pz rx ry rz rw).2 =
      some { ses with virtual_objects := ses.virtual_objects ++
        [{ id := "object_" ++ natRepr ses.virtual_objects.length
           position := (px, py, pz)
           rotation := (rx, ry, rz, rw)
           object_type := objTypeOfSelector t }] } ∧
    place_virtual_object none t px py pz rx ry rz rw = (-1, none) := by
  have h1 : (place_virtual_object (some ses) t px py pz rx ry rz rw).1 =
      i32ofNat ses.virtual_objects.length := rfl
  rw [h1, i32ofNat_small ses.virtual_objects.length hlen]
  refine ⟨rfl, by omega, rfl, rfl⟩

/-- Witness for C2 (amended) at a concrete input. -/
theorem place_virtual_object_spec_witness :
    (place_virtual_object (some demoSession) 0 f32zero f32zero f32zero f32zero f32zero
        f32zero f32zero).1 = (demoSession.virtual_objects.length : Int) ∧
    0 ≤ (place_virtual_object (some demoSession) 0 f32zero f32zero f32zero f32zero f32zero
        f32zero f32zero).1 ∧
    (place_virtual_object (some demoSession) 0 f32zero f32zero f32zero f32zero f32zero
        f32zero f32zero).2 =
      some { demoSession with virtual_objects := demoSession.virtual_objects ++
        [{ id := "object_" ++ natRepr demoSession.virtual_objects.length
           position := (f32zero, f32zero, f32zero)
           rotation := (f32zero, f32zero, f32zero, f32zero)
           object_type := objTypeOfSelector 0 }] } ∧
    place_virtual_object none 0 f32zero f32zero f32zero f32zero f32zero f32zero f32zero =
      (-1, none) :=
  place_virtual_object_spec demoSession (by decide) 0 f32zero f32zero f32zero f32zero
    f32zero f32zero f32zero

/-- C10 as stated is false on the code: on an Active session holding
`2 ^ 31` objects, the handle just returned by `place_virtual_object` is
negative, so the immediately following `remove_virtual_object` on it
returns `false` instead of `true`. -/
theorem place_then_remove_overflow_cex :
    (remove_virtual_object
      (place_virtual_object (some bigSession) 0 f32zero f32zero f32zero f32zero f32zero
          f32zero f32zero).2
      (place_virtual_object (some bigSession) 0 f32zero f32zero f32zero f32zero f32zero
          f32zero f32zero).1).1 = false := by
  have hbig : bigSession.virtual_objects.length = 2 ^ 31 := by
    rw [show bigSession.virtual_objects = List.replicate (2 ^ 31) demoObject from rfl]
    exact List.length_replicate (2 ^ 31) demoObject
  have h1 : (place_virtual_object (some bigSession) 0 f32zero f32zero f32zero f32zero f32zero
      f32zero f32zero).1 = i32ofNat (2 ^ 31) := by
    rw [place_fst, hbig]
  obtain ⟨ses2, hses2⟩ : ∃ s2, (place_virtual_object (some bigSession) 0 f32zero f32zero
      f32zero f32zero f32zero f32zero f32zero).2 = some s2 := ⟨_, rfl⟩
  rw [h1, hses2, remove_virtual_object_neg ses2 _ (by decide)]

/-- C10 (amended): for every Active session with fewer than `2 ^ 31`
objects, removing the handle just returned by `place_virtual_object`, with
no intervening operation, succeeds and restores the object count to its
value before the placement. -/
theorem place_then_remove_roundtrip (ses : ARSession)
    (hlen : ses.virtual_objects.length < 2 ^ 31) (t : Int)
    (px py pz rx ry rz rw : F32) :
    (remove_virtual_object (place_virtual_object (some ses) t px py pz rx ry rz rw).2
        (place_virtual_object (some ses) t px py pz rx ry rz rw).1).1 = true ∧
    objCount (remove_virtual_object (place_virtual_object (some ses) t px py pz rx ry rz rw).2
        (place_virtual_object (some ses) t px py pz rx ry rz rw).1).2 =
      ses.virtual_objects.length := by
  have h1 : (place_virtual_object (some ses) t px py pz rx ry rz rw).1 =
      (ses.virtual_objects.length : Int) := by
    show i32ofNat ses.virtual_objects.length = (ses.virtual_objects.length : Int)
    exact i32ofNat_small ses.virtual_objects.length hlen
  obtain ⟨l2, hl2, hlen2⟩ : ∃ l2, (place_virtual_object (some ses) t px py pz rx ry rz rw).2 =
      some { ses with virtual_objects := l2 } ∧
      l2.length = ses.virtual_objects.length + 1 := ⟨_, rfl, by simp⟩
  have htn : ((ses.virtual_objects.length : Int)).toNat = ses.virtual_objects.length := rfl
  rw [h1, hl2, remove_virtual_object_success _ _ (by omega)
    (by show ((ses.virtual_objects.length : Int)).toNat < l2.length; omega)]
  refine ⟨rfl, ?_⟩
  show (l2.eraseIdx ((ses.virtual_objects.length : Int)).toNat).length =
    ses.virtual_objects.length
  rw [htn, List.length_eraseIdx_of_lt (by omega)]
  omega

/-- Witness for C10 (amended) at a concrete input. -/
theorem place_then_remove_roundtrip_witness :
    (remove_virtual_object (place_virtual_object (some demoSession) 0 f32zero f32zero f32zero
        f32zero f32zero f32zero f32zero).2
      (place_virtual_object (some demoSession) 0 f32zero f32zero f32zero f32zero f32zero
        f32zero f32zero).1).1 = true ∧
    objCount (remove_virtual_object (place_virtual_object (some demoSession) 0 f32zero f32zero
        f32zero f32zero f32zero f32zero f32zero).2
      (place_virtual_object (some demoSession) 0 f32zero f32zero f32zero f32zero f32zero
        f32zero f32zero).1).2 = demoSession.virtual_objects.length :=
  place_then_remove_roundtrip demoSession (by decide) 0 f32zero f32zero f32zero f32zero
    f32zero f32zero f32zero

/-- The synthesized object ids are pairwise distinct across counts. -/
theorem synthObjId_injective : Function.Injective synthObjId := by
  intro a b h
  have hdata : "object_".data ++ (natRepr a).data = "object_".data ++ (natRepr b).data := by
    have h2 := congrArg String.data h
    rw [synthObjId, synthObjId, string_data_append, string_data_append] at h2
    exact h2
  have h3 : (natRepr a).data = (natRepr b).data := List.append_cancel_left hdata
  exact natRepr_injective a b (congrArg String.mk h3)

/-- Every non-remove boundary call preserves canonical object ids. -/
theorem applyOp_canonical (s : GlobalState) (op : BOp) (hop : isRemoveOp op = false)
    (hs : objIdsCanonical s) : objIdsCanonical (applyOp s op) := by
  cases op with
  | initOp => exact rfl
  | cameraOp x y z =>
    cases s with
    | none => exact trivial
    | some ses => exact hs
  | addPlaneOp id a b c d e f g h =>
    cases s with
    | none => exact trivial
    | some ses => exact hs
  | statsOp p o =>
    cases s with
    | none => exact trivial
    | some ses => exact hs
  | removeObjOp h => exact Bool.noConfusion hop
  | placeObjOp t a b c d e f g =>
    cases s with
    | none => exact trivial
    | some ses =>
      have hs' : ses.virtual_objects.map ARObject.id =
          (List.range ses.virtual_objects.length).map synthObjId := hs
      show (ses.virtual_objects ++
          [({ id := "object_" ++ natRepr ses.virtual_objects.length
              position := (a, b, c)
              rotation := (d, e, f, g)
              object_type := objTypeOfSelector t } : ARObject)]).map ARObject.id =
        (List.range (ses.virtual_objects ++
          [({ id := "object_" ++ natRepr ses.virtual_objects.length
              position := (a, b, c)
              rotation := (d, e, f, g)
              object_type := objTypeOfSelector t } : ARObject)]).length).map synthObjId
      rw [List.map_append, List.length_append]
      show ses.virtual_objects.map ARObject.id ++
          ["object_" ++ natRepr ses.virtual_objects.length] =
        (List.range (ses.virtual_objects.length + 1)).map synthObjId
      rw [List.range_succ, List.map_append, hs']
      rfl

/-- Canonical object ids are an invariant of every remove-free run. -/
theorem runOps_canonical : ∀ ops : List BOp, (∀ op ∈ ops, isRemoveOp op = false) →
    ∀ s : GlobalState, objIdsCanonical s → objIdsCanonical (runOps s ops) := by
  intro ops
  induction ops with
  | nil => exact fun _ s hs => hs
  | cons op rest ih =>
    intro h s hs
    have h1 : isRemoveOp op = false := h op (List.mem_cons_self op rest)
    have h2 : ∀ o ∈ rest, isRemoveOp o = false := fun o ho => h o (List.mem_cons_of_mem op ho)
    show objIdsCanonical (runOps (applyOp s op) rest)
    exact ih h2 (applyOp s op) (applyOp_canonical s op h1 hs)

/-- C3 as stated is false on the code: running place, place, remove 0,
place from a fresh session leaves two stored objects that both carry the
id `"object_1"` (the second `place` reuses the count `1` after the
removal), so the stored ids are not pairwise distinct. -/
theorem object_ids_duplicate_cex :
    objIds (runOps (init_ar_session none) dupOps) = ["object_1", "object_1"] ∧
    ¬ (objIds (runOps (init_ar_session none) dupOps)).Nodup := by
  exact ⟨by decide, by decide⟩

/-- C3 (amended): in every state reachable from initialization by a call
sequence containing no `remove_virtual_object`, the ids of the stored
virtual objects are pairwise distinct (they are exactly
`object_0, …, object_(n-1)`).  The counterexample forces the no-removal
restriction: removal shrinks the count that the next placement reuses. -/
theorem object_ids_nodup (ops : List BOp)
    (h : ∀ op ∈ ops, isRemoveOp op = false) :
    (objIds (runOps (init_ar_session none) ops)).Nodup := by
  have hcan := runOps_canonical ops h (init_ar_session none) rfl
  cases hfinal : runOps (init_ar_session none) ops with
  | none => exact List.nodup_nil
  | some ses =>
    rw [hfinal] at hcan
    have hcan' : ses.virtual_objects.map ARObject.id =
        (List.range ses.virtual_objects.length).map synthObjId := hcan
    show (ses.virtual_objects.map ARObject.id).Nodup
    rw [hcan']
    exact (List.nodup_range _).map synthObjId_injective

/-- Witness for C3 (amended) at a concrete remove-free call sequence. -/
theorem object_ids_nodup_witness :
    (objIds (runOps (init_ar_session none) placesOnlyOps)).Nodup :=
  object_ids_nodup placesOnlyOps (by decide)

/-- On a run with no removal and no re-initialization, the `k`-th
placement returns the (`as i32`-cast) handle `initial count + k`. -/
theorem placeResults_formula : ∀ ops : List BOp,
    (∀ op ∈ ops, isRemoveOp op = false ∧ isInitOp op = false) →
    ∀ ses : ARSession,
    placeResults (some ses) ops =
      (List.range (countPlaces ops)).map
        (fun i => i32ofNat (ses.virtual_objects.length + i)) := by
  intro ops
  induction ops with
  | nil => exact fun _ ses => rfl
  | cons op rest ih =>
    intro h ses
    have h1 := h op (List.mem_cons_self op rest)
    have h2 : ∀ o ∈ rest, isRemoveOp o = false ∧ isInitOp o = false :=
      fun o ho => h o (List.mem_cons_of_mem op ho)
    cases op with
    | initOp => exact Bool.noConfusion h1.2
    | removeObjOp hh => exact Bool.noConfusion h1.1
    | cameraOp x y z =>
      show placeResults (some { ses with camera_position := (x, y, z) }) rest =
        (List.range (countPlaces rest)).map
          (fun i => i32ofNat (ses.virtual_objects.length + i))
      rw [ih h2]
    | addPlaneOp id a b c d e f g hh =>
      show placeResults (add_detected_plane (some ses) id a b c d e f g hh) rest =
        (List.range (countPlaces rest)).map
          (fun i => i32ofNat (ses.virtual_objects.length + i))
      obtain ⟨ses2, hses2, hvo⟩ : ∃ ses2, add_detected_plane (some ses) id a b c d e f g hh =
          some ses2 ∧ ses2.virtual_objects = ses.virtual_objects := ⟨_, rfl, rfl⟩
      rw [hses2, ih h2, hvo]
    | statsOp p o =>
      show placeResults (some ses) rest =
        (List.range (countPlaces rest)).map
          (fun i => i32ofNat (ses.virtual_objects.length + i))
      exact ih h2 ses
    | placeObjOp t a b c d e f g =>
      show (place_virtual_object (some ses) t a b c d e f g).1 ::
          placeResults (place_virtual_object (some ses) t a b c d e f g).2 rest =
        (List.range (countPlaces rest + 1)).map
          (fun i => i32ofNat (ses.virtual_objects.length + i))
      obtain ⟨ses2, hses2, hvo⟩ : ∃ ses2, (place_virtual_object (some ses) t a b c d e f g).2 =
          some ses2 ∧ ses2.virtual_objects.length = ses.virtual_objects.length + 1 :=
        ⟨_, rfl, by simp⟩
      rw [place_fst, hses2, ih h2, hvo, List.range_succ_eq_map, List.map_cons, List.map_map]
      congr 1
      apply List.map_congr_left
      intro i _
      show i32ofNat (ses.virtual_objects.length + 1 + i) =
        i32ofNat (ses.virtual_objects.length + (i + 1))
      congr 1
      omega

/-- C4 as stated is false on the code: on the run place, place, remove 0,
place the returned handles are `0, 1, 1` — with a removal interleaved the
handles are neither strictly increasing nor the values `0, 1, 2, …`. -/
theorem place_handles_not_monotonic_cex :
    placeResults (init_ar_session none) dupOps = [0, 1, 1] ∧
    placeResults (init_ar_session none) dupOps ≠
      (List.range (countPlaces dupOps)).map Int.ofNat ∧
    ¬ List.Pairwise (fun x y : Int => x < y) (placeResults (init_ar_session none) dupOps) := by
  exact ⟨by decide, by decide, by decide⟩

/-- C4 (amended): starting from a freshly initialized session, for every
call sequence whose interleaved operations leave the object count alone
(no `remove_virtual_object` and no re-initialization) and that contains at
most `2 ^ 31` placements, the placement handles are exactly
`0, 1, 2, …` in call order; and every `place_virtual_object` call while
Uninitialized returns `-1`.  (The counterexample forces the no-removal /
no-re-init restriction; the `as i32` cast forces the `2 ^ 31` bound.) -/
theorem place_handles_monotonic (ops : List BOp)
    (h : ∀ op ∈ ops, isRemoveOp op = false ∧ isInitOp op = false)
    (hcnt : countPlaces ops ≤ 2 ^ 31) :
    placeResults (init_ar_session none) ops =
      (List.range (countPlaces ops)).map Int.ofNat ∧
    ∀ (t : Int) (a b c d e f g : F32),
      (place_virtual_object none t a b c d e f g).1 = -1 := by
  constructor
  · show placeResults (some freshSession) ops = (List.range (countPlaces ops)).map Int.ofNat
    rw [placeResults_formula ops h freshSession]
    apply List.map_congr_left
    intro i hi
    have hi' : i < countPlaces ops := List.mem_range.mp hi
    show i32ofNat (0 + i) = Int.ofNat i
    rw [Nat.zero_add]
    exact i32ofNat_small i (by omega)
  · intro t a b c d e f g
    rfl

/-- Witness for C4 (amended) at a concrete call sequence: two placements
with a camera update in between return the handles `0, 1`. -/
theorem place_handles_monotonic_witness :
    placeResults (init_ar_session none) placesOnlyOps =
      (List.range (countPlaces placesOnlyOps)).map Int.ofNat :=
  (place_handles_monotonic placesOnlyOps (by decide) (by decide)).1

/-- C6 as stated is false on the code: a non-null but empty C string id is
not replaced by a synthesized id — the empty string is stored verbatim
(only a null pointer triggers synthesis, line 93). -/
theorem add_plane_empty_id_cex :
    planeIds (add_detected_plane (init_ar_session none) (some []) f32zero f32zero f32zero
        f32zero f32zero f32zero f32zero f32zero) = [""] ∧
    ("" : String) ≠ "plane_0" := by
  exact ⟨by decide, by decide⟩

/-- C6 (amended): on an Active session `add_detected_plane` synthesizes
`"plane_<plane count before the append>"` exactly when the id pointer is
null; every non-null id — including the empty string — is stored verbatim
as its lossily-decoded text. -/
theorem add_plane_id_policy (ses : ARSession) (bytes : List Nat)
    (c1 c2 c3 w h n1 n2 n3 : F32) :
    add_detected_plane (some ses) none c1 c2 c3 w h n1 n2 n3 =
      some { ses with detected_planes := ses.detected_planes ++
        [{ id := "plane_" ++ natRepr ses.detected_planes.length
           center := (c1, c2, c3)
           extent := (w, h)
           normal := (n1, n2, n3) }] } ∧
    add_detected_plane (some ses) (some bytes) c1 c2 c3 w h n1 n2 n3 =
      some { ses with detected_planes := ses.detected_planes ++
        [{ id := cpsToString (utf8LossyDecode bytes)
           center := (c1, c2, c3)
           extent := (w, h)
           normal := (n1, n2, n3) }] } :=
  ⟨rfl, rfl⟩

/-- C7 as stated is false on the code: the non-null id byte `0xFF` is not
valid UTF-8, yet it is NOT treated as absent — the stored id is the
lossily-decoded replacement-character string, not the synthesized
`"plane_0"`. -/
theorem add_plane_invalid_utf8_cex :
    planeIds (add_detected_plane (init_ar_session none) (some [0xFF]) f32zero f32zero f32zero
        f32zero f32zero f32zero f32zero f32zero) = [cpsToString [0xFFFD]] ∧
    cpsToString [0xFFFD] ≠ "plane_0" := by
  exact ⟨by decide, by decide⟩

/-- C7 (amended): when non-null id bytes fail UTF-8 decoding (the decoder
emits at least one U+FFFD replacement), `add_detected_plane` stores the
lossily-decoded string — which always differs from the synthesized
`"plane_<count>"` id — instead of treating the id as absent. -/
theorem add_plane_lossy_decode (ses : ARSession) (bytes : List Nat)
    (hbad : 0xFFFD ∈ utf8LossyDecode bytes) (c1 c2 c3 w h n1 n2 n3 : F32) :
    planeIds (add_detected_plane (some ses) (some bytes) c1 c2 c3 w h n1 n2 n3) =
      planeIds (some ses) ++ [cpsToString (utf8LossyDecode bytes)] ∧
    cpsToString (utf8LossyDecode bytes) ≠
      "plane_" ++ natRepr ses.detected_planes.length := by
  constructor
  · show (ses.detected_planes ++ [_]).map ARPlane.id =
      ses.detected_planes.map ARPlane.id ++ [cpsToString (utf8LossyDecode bytes)]
    rw [List.map_append]
    rfl
  · intro heq
    have hmem : Char.ofNat 0xFFFD ∈ (cpsToString (utf8LossyDecode bytes)).data :=
      List.mem_map_of_mem Char.ofNat hbad
    rw [heq, string_data_append] at hmem
    have hrepl : (Char.ofNat 0xFFFD).toNat = 0xFFFD := by decide
    rcases List.mem_append.mp hmem with hin | hin
    · have hall : ∀ c ∈ "plane_".data, Char.toNat c < 128 := by decide
      have h128 := hall _ hin
      omega
    · have h128 := natRepr_ascii ses.detected_planes.length _ hin
      omega

/-- Witness for C7 (amended) at a concrete input: the single byte `0xFF`
on a fresh session. -/
theorem add_plane_lossy_decode_witness :
    planeIds (add_detected_plane (some freshSession) (some [0xFF]) f32zero f32zero f32zero
        f32zero f32zero f32zero f32zero f32zero) =
      planeIds (some freshSession) ++ [cpsToString (utf8LossyDecode [0xFF])] ∧
    cpsToString (utf8LossyDecode [0xFF]) ≠
      "plane_" ++ natRepr freshSession.detected_planes.length :=
  add_plane_lossy_decode freshSession [0xFF] (by decide) f32zero f32zero f32zero f32zero
    f32zero f32zero f32zero f32zero
